import Mathlib

/-!
Verification of the giveaway bot (src/bot.py) against its specification.

The Python program is shallowly embedded as pure Lean functions:

* Python `str` values are Lean `String`s; `str.strip()` is `pyStrip`
  (drop whitespace characters from both ends).
* The Discord user id is modeled as the string `str(interaction.user.id)`
  that the source actually stores and compares.
* `UIDModal.on_submit` becomes a pure transition on the entry store that
  returns the new store together with the ephemeral response sent.
* `export_entries` becomes a function from the store to the reply
  (warning, or CSV file content with its count acknowledgement).
* The persisted JSON file is modeled at the structured-value level by a
  small JSON AST: `save_entries` writes the serialized value, `load_entries`
  reads it back (creating an empty array when the file is absent).
-/

namespace GiveawayBot

/-- One stored giveaway entry, the four string fields written by
`UIDModal.on_submit` in src/bot.py. -/
structure Entry where
  discord_user_id : String
  discord_tag : String
  uid : String
  timestamp : String
deriving DecidableEq, Repr

/-- The data present at one modal submission: `str(interaction.user.id)`,
`str(interaction.user)`, the raw text of the UID field, and the value
`datetime.utcnow().isoformat()` observed at that instant. -/
structure Submission where
  user_id : String
  user_tag : String
  text : String
  timestamp : String
deriving DecidableEq, Repr

/-- The three ephemeral responses `UIDModal.on_submit` can send. -/
inductive SubmitResponse where
  | uidAlreadyUsed
  | userAlreadyEntered
  | success
deriving DecidableEq, Repr

/-- Python `str.strip()` with no argument: remove the longest run of
whitespace characters from both ends of the string. -/
def pyStrip (s : String) : String :=
  ⟨((s.data.dropWhile Char.isWhitespace).reverse.dropWhile Char.isWhitespace).reverse⟩

/-- The entry record constructed by `UIDModal.on_submit` on acceptance. -/
def mkEntry (s : Submission) : Entry :=
  { discord_user_id := s.user_id
    discord_tag := s.user_tag
    uid := pyStrip s.text
    timestamp := s.timestamp }

/-- `UIDModal.on_submit` (src/bot.py lines 52-85) as a pure transition:
trim the submitted text, reject if any stored entry has that uid, else
reject if any stored entry has the submitter's user id, else append the
new entry (the saved store) and acknowledge success. -/
def on_submit (entries : List Entry) (s : Submission) :
    List Entry × SubmitResponse :=
  let uid_value := pyStrip s.text
  if entries.any fun e => e.uid == uid_value then
    (entries, .uidAlreadyUsed)
  else if entries.any fun e => e.discord_user_id == s.user_id then
    (entries, .userAlreadyEntered)
  else
    (entries ++ [mkEntry s], .success)

/-- Run a sequence of submissions through `on_submit`, threading the store
and collecting the responses in order. -/
def runSubmissions (entries : List Entry) :
    List Submission → List Entry × List SubmitResponse
  | [] => (entries, [])
  | s :: rest =>
      let step := on_submit entries s
      let next := runSubmissions step.1 rest
      (next.1, step.2 :: next.2)

/-- Python `s.replace(CHAR_DQUOTE, CHAR_DQUOTE + CHAR_DQUOTE)` on the uid field
(src/bot.py line 154): every double-quote character is replaced by two. -/
def escapeQuotes (s : String) : String :=
  ⟨s.data.flatMap fun c => if c = '"' then ['"', '"'] else [c]⟩

/-- The f-string wrapping of one CSV field in double quotes. -/
def quoteField (s : String) : String :=
  "\"" ++ s ++ "\""

/-- Python `sep.join(xs)` on a list of strings. -/
def pyJoin (sep : String) : List String → String
  | [] => ""
  | [x] => x
  | x :: y :: rest => x ++ sep ++ pyJoin sep (y :: rest)

/-- One CSV row built by `export_entries` (src/bot.py lines 153-164): the
four fields each wrapped in double quotes, with `safe_uid` (only the uid
field) quote-escaped, joined by commas. -/
def rowOf (e : Entry) : String :=
  pyJoin ","
    [quoteField e.discord_user_id, quoteField e.discord_tag,
     quoteField (escapeQuotes e.uid), quoteField e.timestamp]

/-- The `csv_content` string of `export_entries`: the header line with its
trailing newline, then the rows joined by newlines (no trailing newline). -/
def csvContent (entries : List Entry) : String :=
  "discordUserId,discordTag,uid,timestamp\n" ++ pyJoin "\n" (entries.map rowOf)

/-- The reply of the `!export_entries` command: the no-entries warning, or a
file attachment with the given content and name plus the count message. -/
inductive ExportResult where
  | noEntriesWarning
  | csvFile (content : String) (filename : String) (count : Nat)
deriving DecidableEq, Repr

/-- `export_entries` (src/bot.py lines 140-175) as a function of the loaded
store: warn when there are no entries, otherwise attach `entries.csv` with the
CSV content and acknowledge the count. -/
def export_entries (entries : List Entry) : ExportResult :=
  if entries.isEmpty then .noEntriesWarning
  else .csvFile (csvContent entries) "entries.csv" entries.length

/-- Modelled from the spec: a CSV row in which EVERY field's embedded double
quotes are escaped by doubling ("every field is quoted; double-quote
characters inside a field are escaped by doubling"), for comparison with the
source's `rowOf`. -/
def specRowOf (e : Entry) : String :=
  pyJoin ","
    [quoteField (escapeQuotes e.discord_user_id),
     quoteField (escapeQuotes e.discord_tag),
     quoteField (escapeQuotes e.uid),
     quoteField (escapeQuotes e.timestamp)]

/-- Modelled from the spec: CSV content with every field quote-escaped,
same header and row order as the source's `csvContent`. -/
def specCsvContent (entries : List Entry) : String :=
  "discordUserId,discordTag,uid,timestamp\n" ++ pyJoin "\n" (entries.map specRowOf)

/-- The number of newline-separated lines of a string: one more than the
number of newline characters it contains. -/
def lineCount (s : String) : Nat :=
  s.data.count '\n' + 1

/-- One inbound platform event handled by the core: a form submission or an
invocation of the export command. -/
inductive Request where
  | submit (s : Submission)
  | exportCmd
deriving Repr

/-- The response to one handled request. -/
inductive Response where
  | submitted (r : SubmitResponse)
  | exported (r : ExportResult)
deriving DecidableEq, Repr

/-- Handle one inbound event: a submission runs `UIDModal.on_submit`
(which may save an extended store); `!export_entries` only reads the store
(the handler contains no `save_entries` call), so the store is returned
unchanged. -/
def handle (entries : List Entry) : Request → List Entry × Response
  | .submit s =>
      let r := on_submit entries s
      (r.1, .submitted r.2)
  | .exportCmd => (entries, .exported (export_entries entries))

/-- Handle a sequence of inbound events sequentially, threading the store. -/
def runRequests (entries : List Entry) : List Request → List Entry
  | [] => entries
  | r :: rest => runRequests (handle entries r).1 rest

/-- JSON values at the structure level reachable by this program:
strings, arrays, and objects as ordered key-value lists (Python dicts
preserve insertion order, and `json` round-trips that order). -/
inductive Json where
  | str (s : String)
  | arr (elems : List Json)
  | obj (fields : List (String × Json))

/-- The JSON object `json.dump` writes for one entry: the four keys in the
order the dict literal of `on_submit` creates them. -/
def entryToJson (e : Entry) : Json :=
  .obj
    [("discord_user_id", .str e.discord_user_id),
     ("discord_tag", .str e.discord_tag),
     ("uid", .str e.uid),
     ("timestamp", .str e.timestamp)]

/-- The JSON array `json.dump` writes for the whole entry list. -/
def entriesToJson (entries : List Entry) : Json :=
  .arr (entries.map entryToJson)

/-- Read one entry back from its JSON object, the way the source accesses the
loaded dicts (`e["discord_user_id"]`, `e["discord_tag"]`, `e["uid"]`,
`e["timestamp"]` — key lookup, each value a string). -/
def jsonToEntry (j : Json) : Option Entry :=
  match j with
  | .obj fields =>
      match fields.lookup "discord_user_id", fields.lookup "discord_tag",
            fields.lookup "uid", fields.lookup "timestamp" with
      | some (.str a), some (.str b), some (.str c), some (.str d) =>
          some ⟨a, b, c, d⟩
      | _, _, _, _ => none
  | _ => none

/-- Read a list of entries back element by element, failing if any element
is not an entry-shaped object. -/
def jsonToEntryList : List Json → Option (List Entry)
  | [] => some []
  | j :: rest =>
      match jsonToEntry j, jsonToEntryList rest with
      | some e, some t => some (e :: t)
      | _, _ => none

/-- Read the whole entry list back from the loaded JSON value. -/
def jsonToEntries (j : Json) : Option (List Entry) :=
  match j with
  | .arr elems => jsonToEntryList elems
  | _ => none

/-- The contents of `entries.json`, at the structured-value level:
`none` when the file is absent. -/
def FileState : Type := Option Json

/-- `save_entries` (src/bot.py lines 30-32): overwrite the file with the
serialized entry list. -/
def save_entries (entries : List Entry) (_fs : FileState) : FileState :=
  some (entriesToJson entries)

/-- `load_entries` (src/bot.py lines 21-27): when the file is absent, first
create it holding the empty array; then read and parse the file, returning the
new file state and the parsed value. -/
def load_entries (fs : FileState) : FileState × Json :=
  match fs with
  | none => (some (.arr []), .arr [])
  | some j => (some j, j)

theorem on_submit_uid_used (es : List Entry) (s : Submission)
    (h : ∃ e ∈ es, e.uid = pyStrip s.text) :
    on_submit es s = (es, .uidAlreadyUsed) := by
  have hany : (es.any fun e => e.uid == pyStrip s.text) = true := by
    rcases h with ⟨e, he, hu⟩
    exact List.any_eq_true.mpr ⟨e, he, beq_iff_eq.mpr hu⟩
  simp [on_submit, hany]

theorem on_submit_user_entered (es : List Entry) (s : Submission)
    (h1 : ∀ e ∈ es, e.uid ≠ pyStrip s.text)
    (h2 : ∃ e ∈ es, e.discord_user_id = s.user_id) :
    on_submit es s = (es, .userAlreadyEntered) := by
  have ha : (es.any fun e => e.uid == pyStrip s.text) = false := by
    refine List.any_eq_false.mpr ?_
    intro e he
    simpa using h1 e he
  have hb : (es.any fun e => e.discord_user_id == s.user_id) = true := by
    rcases h2 with ⟨e, he, hu⟩
    exact List.any_eq_true.mpr ⟨e, he, beq_iff_eq.mpr hu⟩
  simp [on_submit, ha, hb]

theorem on_submit_accepts (es : List Entry) (s : Submission)
    (h1 : ∀ e ∈ es, e.uid ≠ pyStrip s.text)
    (h2 : ∀ e ∈ es, e.discord_user_id ≠ s.user_id) :
    on_submit es s = (es ++ [mkEntry s], .success) := by
  have ha : (es.any fun e => e.uid == pyStrip s.text) = false := by
    refine List.any_eq_false.mpr ?_
    intro e he
    simpa using h1 e he
  have hb : (es.any fun e => e.discord_user_id == s.user_id) = false := by
    refine List.any_eq_false.mpr ?_
    intro e he
    simpa using h2 e he
  simp [on_submit, ha, hb]

/-- C4: if some stored entry already has uid equal to the trimmed submitted
text, the submission is rejected with the UID-already-used response and the
store is returned unchanged. -/
theorem duplicate_uid_rejected (es : List Entry) (s : Submission)
    (h : ∃ e ∈ es, e.uid = pyStrip s.text) :
    on_submit es s = (es, .uidAlreadyUsed) :=
  on_submit_uid_used es s h

theorem duplicate_uid_rejected_witness :
    (∃ e ∈ [Entry.mk "1" "alice" "UID7" "t0"], e.uid = pyStrip " UID7 ") ∧
    on_submit [Entry.mk "1" "alice" "UID7" "t0"] ⟨"2", "bob", " UID7 ", "t1"⟩ =
      ([Entry.mk "1" "alice" "UID7" "t0"], .uidAlreadyUsed) :=
  ⟨by decide,
   duplicate_uid_rejected [Entry.mk "1" "alice" "UID7" "t0"]
     ⟨"2", "bob", " UID7 ", "t1"⟩ (by decide)⟩

/-- C5: if no stored uid matches the trimmed submitted text but some stored
entry has the submitter's discord user id, the submission is rejected with
the user-already-entered response and the store is returned unchanged. -/
theorem duplicate_user_rejected (es : List Entry) (s : Submission)
    (h1 : ∀ e ∈ es, e.uid ≠ pyStrip s.text)
    (h2 : ∃ e ∈ es, e.discord_user_id = s.user_id) :
    on_submit es s = (es, .userAlreadyEntered) :=
  on_submit_user_entered es s h1 h2

theorem duplicate_user_rejected_witness :
    ((∀ e ∈ [Entry.mk "1" "alice" "UID7" "t0"], e.uid ≠ pyStrip "UID8") ∧
      ∃ e ∈ [Entry.mk "1" "alice" "UID7" "t0"], e.discord_user_id = "1") ∧
    on_submit [Entry.mk "1" "alice" "UID7" "t0"] ⟨"1", "alice", "UID8", "t1"⟩ =
      ([Entry.mk "1" "alice" "UID7" "t0"], .userAlreadyEntered) :=
  ⟨⟨by decide, by decide⟩,
   duplicate_user_rejected [Entry.mk "1" "alice" "UID7" "t0"]
     ⟨"1", "alice", "UID8", "t1"⟩ (by decide) (by decide)⟩

/-- C3: when both rejection conditions hold at once — the trimmed uid is
already stored and the submitter's user id is already stored — the response
is the UID-already-used rejection, not the user-already-entered one. -/
theorem uid_rejection_precedence (es : List Entry) (s : Submission)
    (h1 : ∃ e ∈ es, e.uid = pyStrip s.text)
    (_h2 : ∃ e ∈ es, e.discord_user_id = s.user_id) :
    (on_submit es s).2 = .uidAlreadyUsed := by
  rw [on_submit_uid_used es s h1]

theorem uid_rejection_precedence_witness :
    ((∃ e ∈ [Entry.mk "1" "alice" "UID7" "t0"], e.uid = pyStrip "UID7") ∧
      ∃ e ∈ [Entry.mk "1" "alice" "UID7" "t0"], e.discord_user_id = "1") ∧
    (on_submit [Entry.mk "1" "alice" "UID7" "t0"]
        ⟨"1", "alice", "UID7", "t1"⟩).2 = .uidAlreadyUsed :=
  ⟨⟨by decide, by decide⟩,
   uid_rejection_precedence [Entry.mk "1" "alice" "UID7" "t0"]
     ⟨"1", "alice", "UID7", "t1"⟩ (by decide) (by decide)⟩

/-- C7: whenever a submission is accepted, the appended entry's uid is
exactly the submitted text with surrounding whitespace trimmed. -/
theorem accepted_uid_is_trimmed (es : List Entry) (s : Submission)
    (h : (on_submit es s).2 = .success) :
    (on_submit es s).1 = es ++ [⟨s.user_id, s.user_tag, pyStrip s.text, s.timestamp⟩] := by
  by_cases ha : (es.any fun e => e.uid == pyStrip s.text) = true
  · simp [on_submit, ha] at h
  · by_cases hb : (es.any fun e => e.discord_user_id == s.user_id) = true
    · simp [on_submit, ha, hb] at h
    · simp [on_submit, ha, hb, mkEntry]

theorem accepted_uid_is_trimmed_witness :
    (on_submit [] ⟨"9", "zoe", "  ABC123  ", "t0"⟩).2 = .success ∧
    (on_submit [] ⟨"9", "zoe", "  ABC123  ", "t0"⟩).1 =
      [Entry.mk "9" "zoe" "ABC123" "t0"] :=
  ⟨by decide,
   (accepted_uid_is_trimmed [] ⟨"9", "zoe", "  ABC123  ", "t0"⟩ (by decide)).trans
     (by decide)⟩

/-- C8: a submission whose text trims to the empty string goes through the
ordinary logic: it is rejected as a used UID when some stored uid is the
empty string, rejected as a repeat user otherwise when the user id is stored,
and otherwise accepted with uid equal to the empty string. -/
theorem empty_uid_not_special (es : List Entry) (s : Submission)
    (h : pyStrip s.text = "") :
    ((∃ e ∈ es, e.uid = "") → on_submit es s = (es, .uidAlreadyUsed)) ∧
    ((∀ e ∈ es, e.uid ≠ "") → (∃ e ∈ es, e.discord_user_id = s.user_id) →
      on_submit es s = (es, .userAlreadyEntered)) ∧
    ((∀ e ∈ es, e.uid ≠ "") → (∀ e ∈ es, e.discord_user_id ≠ s.user_id) →
      on_submit es s =
        (es ++ [⟨s.user_id, s.user_tag, "", s.timestamp⟩], .success)) := by
  refine ⟨fun h1 => ?_, fun h1 h2 => ?_, fun h1 h2 => ?_⟩
  · exact on_submit_uid_used es s (h ▸ h1)
  · exact on_submit_user_entered es s (h ▸ h1) h2
  · have := on_submit_accepts es s (h ▸ h1) h2
    simpa [mkEntry, h] using this

theorem empty_uid_not_special_witness :
    pyStrip "   " = "" ∧
    (((∃ e ∈ ([] : List Entry), e.uid = "") →
        on_submit [] ⟨"7", "wei", "   ", "t0"⟩ = ([], .uidAlreadyUsed)) ∧
      ((∀ e ∈ ([] : List Entry), e.uid ≠ "") →
        (∃ e ∈ ([] : List Entry), e.discord_user_id = "7") →
        on_submit [] ⟨"7", "wei", "   ", "t0"⟩ = ([], .userAlreadyEntered)) ∧
      ((∀ e ∈ ([] : List Entry), e.uid ≠ "") →
        (∀ e ∈ ([] : List Entry), e.discord_user_id ≠ "7") →
        on_submit [] ⟨"7", "wei", "   ", "t0"⟩ =
          ([Entry.mk "7" "wei" "" "t0"], .success))) :=
  ⟨by decide, empty_uid_not_special [] ⟨"7", "wei", "   ", "t0"⟩ (by decide)⟩

/-- C9: exporting when the store is empty replies with the no-entries
warning only — no file attachment is produced — and leaves the store
unchanged. -/
theorem export_empty_store_warning :
    handle [] .exportCmd = ([], .exported .noEntriesWarning) :=
  rfl

theorem jsonToEntry_entryToJson (e : Entry) : jsonToEntry (entryToJson e) = some e :=
  rfl

/-- C10: decoding the store value written by `save_entries` — as
`load_entries` followed by the field accesses the program performs on the
loaded objects — returns the same entries in the same order, whatever the
previous file state was. -/
theorem load_after_save_roundtrip (es : List Entry) (fs : FileState) :
    jsonToEntries (load_entries (save_entries es fs)).2 = some es := by
  show jsonToEntries (entriesToJson es) = some es
  induction es with
  | nil => rfl
  | cons e t ih =>
      simp only [jsonToEntries, entriesToJson, List.map_cons, jsonToEntryList,
        jsonToEntry_entryToJson] at ih ⊢
      simp [ih]

theorem escapeQuotes_count (c : Char) (hc : c ≠ '"') (s : String) :
    (escapeQuotes s).data.count c = s.data.count c := by
  show (s.data.flatMap fun d => if d = '"' then ['"', '"'] else [d]).count c
      = s.data.count c
  induction s.data with
  | nil => rfl
  | cons d t ih =>
      by_cases hd : d = '"'
      · subst hd
        simp [List.count_append, List.count_cons, ih, hc, Ne.symm hc]
      · simp [hd, List.count_append, List.count_cons, ih]

theorem escapeQuotes_eq_self (s : String) (h : '"' ∉ s.data) : escapeQuotes s = s := by
  cases s with
  | mk l =>
      show (⟨l.flatMap fun d => if d = '"' then ['"', '"'] else [d]⟩ : String) = ⟨l⟩
      congr 1
      induction l with
      | nil => rfl
      | cons d t ih =>
          simp at h
          have hd : d ≠ '"' := fun hh => h.1 hh.symm
          simp [hd, ih h.2]

theorem dquote_data : "\"".data = ['"'] := rfl

theorem quoteField_count (c : Char) (hc : ('"' : Char) ≠ c) (s : String) :
    (quoteField s).data.count c = s.data.count c := by
  simp [quoteField, String.data_append, dquote_data, List.count_append,
    List.count_cons, hc]

theorem pyJoin_newline_count (rows : List String)
    (h : ∀ r ∈ rows, r.data.count '\n' = 0) :
    (pyJoin "\n" rows).data.count '\n' = rows.length - 1 := by
  induction rows with
  | nil => rfl
  | cons x ys ih =>
      cases ys with
      | nil => simpa using h x (by simp)
      | cons y zs =>
          have hx := h x (by simp)
          have hrest := ih (fun r hr => h r (by simp [hr]))
          simp only [pyJoin, String.data_append, List.count_append] at hrest ⊢
          simp [hx, hrest]
          omega

theorem comma_data : ",".data = [','] := rfl

theorem header_newline_count :
    "discordUserId,discordTag,uid,timestamp\n".data.count '\n' = 1 := by decide

theorem rowOf_newline_count (e : Entry)
    (h1 : '\n' ∉ e.discord_user_id.data) (h2 : '\n' ∉ e.discord_tag.data)
    (h3 : '\n' ∉ e.uid.data) (h4 : '\n' ∉ e.timestamp.data) :
    (rowOf e).data.count '\n' = 0 := by
  have hq : ('"' : Char) ≠ '\n' := by decide
  have c1 := quoteField_count '\n' hq e.discord_user_id
  have c2 := quoteField_count '\n' hq e.discord_tag
  have c3 := quoteField_count '\n' hq (escapeQuotes e.uid)
  have c4 := quoteField_count '\n' hq e.timestamp
  have c3' : (escapeQuotes e.uid).data.count '\n' = e.uid.data.count '\n' :=
    escapeQuotes_count '\n' (by decide) e.uid
  simp only [rowOf, pyJoin, String.data_append, List.count_append,
    c1, c2, c3, c4, c3', comma_data]
  simp [List.count_eq_zero.mpr h1, List.count_eq_zero.mpr h2,
    List.count_eq_zero.mpr h3, List.count_eq_zero.mpr h4]

theorem csvContent_newline_count (es : List Entry) (hne : es ≠ [])
    (h : ∀ e ∈ es, '\n' ∉ e.discord_user_id.data ∧ '\n' ∉ e.discord_tag.data ∧
      '\n' ∉ e.uid.data ∧ '\n' ∉ e.timestamp.data) :
    (csvContent es).data.count '\n' = es.length := by
  have hrows : ∀ r ∈ es.map rowOf, r.data.count '\n' = 0 := by
    intro r hr
    rcases List.mem_map.mp hr with ⟨e, he, rfl⟩
    rcases h e he with ⟨h1, h2, h3, h4⟩
    exact rowOf_newline_count e h1 h2 h3 h4
  have hjoin := pyJoin_newline_count (es.map rowOf) hrows
  have hlen : es.length ≠ 0 := fun hl => hne (List.length_eq_zero.mp hl)
  have hsplit : (csvContent es).data.count '\n' =
      "discordUserId,discordTag,uid,timestamp\n".data.count '\n' +
        (pyJoin "\n" (es.map rowOf)).data.count '\n' := by
    rw [csvContent, String.data_append, List.count_append]
  rw [hsplit, header_newline_count, hjoin, List.length_map]
  omega

theorem rowOf_eq_specRowOf (e : Entry)
    (h1 : '"' ∉ e.discord_user_id.data) (h2 : '"' ∉ e.discord_tag.data)
    (h4 : '"' ∉ e.timestamp.data) :
    rowOf e = specRowOf e := by
  rw [specRowOf, escapeQuotes_eq_self _ h1, escapeQuotes_eq_self _ h2,
    escapeQuotes_eq_self _ h4, rowOf]

theorem csvContent_eq_specCsvContent (es : List Entry)
    (hq : ∀ e ∈ es, '"' ∉ e.discord_user_id.data ∧ '"' ∉ e.discord_tag.data ∧
      '"' ∉ e.timestamp.data) :
    csvContent es = specCsvContent es := by
  rw [csvContent, specCsvContent]
  have hmap : es.map rowOf = es.map specRowOf := by
    refine List.map_congr_left ?_
    intro e he
    rcases hq e he with ⟨h1, h2, h4⟩
    exact rowOf_eq_specRowOf e h1 h2 h4
  rw [hmap]

/-- C2 fails as stated: for the single-entry store whose discord_tag contains
a double quote and whose timestamp contains a newline, the export has three
newline-separated lines instead of two, and the tag's double quote is not
doubled (the produced content differs from the fully-escaped form). -/
theorem csv_export_claim_counterexample :
    lineCount (csvContent [⟨"1", "a\"b", "u", "x\ny"⟩]) ≠
      ([⟨"1", "a\"b", "u", "x\ny"⟩] : List Entry).length + 1 ∧
    csvContent [⟨"1", "a\"b", "u", "x\ny"⟩] ≠
      specCsvContent [⟨"1", "a\"b", "u", "x\ny"⟩] := by
  constructor <;> decide

/-- C2 amended: for every non-empty store whose field values contain no
newline and whose fields other than uid contain no double quote, the export
command attaches `entries.csv` whose content has exactly N+1
newline-separated lines — the header then one row per entry in store order —
with every field wrapped in double quotes and double quotes occurring in the
uid field escaped by doubling (the content then coincides with the
fully-escaped serialization). -/
theorem csv_export_amended (es : List Entry) (hne : es ≠ [])
    (hnl : ∀ e ∈ es, '\n' ∉ e.discord_user_id.data ∧ '\n' ∉ e.discord_tag.data ∧
      '\n' ∉ e.uid.data ∧ '\n' ∉ e.timestamp.data)
    (hq : ∀ e ∈ es, '"' ∉ e.discord_user_id.data ∧ '"' ∉ e.discord_tag.data ∧
      '"' ∉ e.timestamp.data) :
    export_entries es = .csvFile (csvContent es) "entries.csv" es.length ∧
    lineCount (csvContent es) = es.length + 1 ∧
    csvContent es = specCsvContent es := by
  refine ⟨?_, ?_, csvContent_eq_specCsvContent es hq⟩
  · rw [export_entries, if_neg (by simpa using hne)]
  · rw [lineCount, csvContent_newline_count es hne hnl]

theorem csv_export_amended_witness :
    (([Entry.mk "1" "alice" "u\"1" "t0"] : List Entry) ≠ [] ∧
      (∀ e ∈ [Entry.mk "1" "alice" "u\"1" "t0"],
        '\n' ∉ e.discord_user_id.data ∧ '\n' ∉ e.discord_tag.data ∧
        '\n' ∉ e.uid.data ∧ '\n' ∉ e.timestamp.data) ∧
      (∀ e ∈ [Entry.mk "1" "alice" "u\"1" "t0"],
        '"' ∉ e.discord_user_id.data ∧ '"' ∉ e.discord_tag.data ∧
        '"' ∉ e.timestamp.data)) ∧
    (export_entries [Entry.mk "1" "alice" "u\"1" "t0"] =
        .csvFile (csvContent [Entry.mk "1" "alice" "u\"1" "t0"]) "entries.csv" 1 ∧
      lineCount (csvContent [Entry.mk "1" "alice" "u\"1" "t0"]) = 1 + 1 ∧
      csvContent [Entry.mk "1" "alice" "u\"1" "t0"] =
        specCsvContent [Entry.mk "1" "alice" "u\"1" "t0"]) :=
  ⟨⟨by decide, by decide, by decide⟩,
   csv_export_amended [Entry.mk "1" "alice" "u\"1" "t0"]
     (by decide) (by decide) (by decide)⟩

theorem runSubmissions_cons (es : List Entry) (s : Submission) (rest : List Submission) :
    runSubmissions es (s :: rest) =
      ((runSubmissions (on_submit es s).1 rest).1,
       (on_submit es s).2 :: (runSubmissions (on_submit es s).1 rest).2) := rfl

theorem runSubmissions_fresh_aux (subs : List Submission) :
    ∀ es : List Entry,
      (∀ s ∈ subs, ∀ e ∈ es, e.uid ≠ pyStrip s.text) →
      (∀ s ∈ subs, ∀ e ∈ es, e.discord_user_id ≠ s.user_id) →
      (subs.map Submission.user_id).Nodup →
      (subs.map fun s => pyStrip s.text).Nodup →
      (∀ r ∈ (runSubmissions es subs).2, r = SubmitResponse.success) ∧
      (runSubmissions es subs).1.length = es.length + subs.length := by
  induction subs with
  | nil =>
      intro es _ _ _ _
      simp [runSubmissions]
  | cons s rest ih =>
      intro es hdu hdi hnu hnt
      have hstep : on_submit es s = (es ++ [mkEntry s], .success) :=
        on_submit_accepts es s
          (fun e he => hdu s (by simp) e he)
          (fun e he => hdi s (by simp) e he)
      have hnu' : (rest.map Submission.user_id).Nodup := (List.nodup_cons.mp hnu).2
      have hnt' : (rest.map fun s => pyStrip s.text).Nodup := (List.nodup_cons.mp hnt).2
      have hdu' : ∀ s' ∈ rest, ∀ e ∈ es ++ [mkEntry s], e.uid ≠ pyStrip s'.text := by
        intro s' hs' e he
        rcases List.mem_append.mp he with he | he
        · exact hdu s' (by simp [hs']) e he
        · have he' : e = mkEntry s := by simpa using he
          subst he'
          intro hcontra
          have hcontra' : pyStrip s.text = pyStrip s'.text := by
            simpa [mkEntry] using hcontra
          have hmem : pyStrip s.text ∈ rest.map fun t => pyStrip t.text := by
            rw [hcontra']
            exact List.mem_map.mpr ⟨s', hs', rfl⟩
          exact absurd hmem (by simpa using (List.nodup_cons.mp hnt).1)
      have hdi' : ∀ s' ∈ rest, ∀ e ∈ es ++ [mkEntry s],
          e.discord_user_id ≠ s'.user_id := by
        intro s' hs' e he
        rcases List.mem_append.mp he with he | he
        · exact hdi s' (by simp [hs']) e he
        · have he' : e = mkEntry s := by simpa using he
          subst he'
          intro hcontra
          have hcontra' : s.user_id = s'.user_id := by
            simpa [mkEntry] using hcontra
          have hmem : s.user_id ∈ rest.map Submission.user_id := by
            rw [hcontra']
            exact List.mem_map.mpr ⟨s', hs', rfl⟩
          exact absurd hmem (by simpa using (List.nodup_cons.mp hnu).1)
      have hrec := ih (es ++ [mkEntry s]) hdu' hdi' hnu' hnt'
      rw [runSubmissions_cons, hstep]
      constructor
      · intro r hr
        rcases List.mem_cons.mp hr with hr | hr
        · exact hr
        · exact hrec.1 r hr
      · have hlen := hrec.2
        simp only [List.length_append, List.length_cons, List.length_nil] at hlen ⊢
        omega

/-- C1: starting from the empty store, if the submissions' user ids are
pairwise distinct and their trimmed UID texts are pairwise distinct, every
submission in the sequence is acknowledged with success and the final
store's length equals the number of submissions. -/
theorem distinct_submissions_accepted (subs : List Submission)
    (hu : (subs.map Submission.user_id).Nodup)
    (ht : (subs.map fun s => pyStrip s.text).Nodup) :
    (∀ r ∈ (runSubmissions [] subs).2, r = SubmitResponse.success) ∧
    (runSubmissions [] subs).1.length = subs.length := by
  have h := runSubmissions_fresh_aux subs [] (by simp) (by simp) hu ht
  simpa using h

theorem distinct_submissions_accepted_witness :
    (([Submission.mk "1" "alice" " U1 " "t1",
        Submission.mk "2" "bob" "U2" "t2"].map Submission.user_id).Nodup ∧
      ([Submission.mk "1" "alice" " U1 " "t1",
        Submission.mk "2" "bob" "U2" "t2"].map fun s => pyStrip s.text).Nodup) ∧
    ((∀ r ∈ (runSubmissions [] [Submission.mk "1" "alice" " U1 " "t1",
        Submission.mk "2" "bob" "U2" "t2"]).2, r = SubmitResponse.success) ∧
      (runSubmissions [] [Submission.mk "1" "alice" " U1 " "t1",
        Submission.mk "2" "bob" "U2" "t2"]).1.length = 2) :=
  ⟨⟨by decide, by decide⟩,
   distinct_submissions_accepted
     [Submission.mk "1" "alice" " U1 " "t1", Submission.mk "2" "bob" "U2" "t2"]
     (by decide) (by decide)⟩

theorem on_submit_preserves_nodup (es : List Entry) (s : Submission)
    (h1 : (es.map Entry.uid).Nodup)
    (h2 : (es.map Entry.discord_user_id).Nodup) :
    (((on_submit es s).1.map Entry.uid).Nodup) ∧
    (((on_submit es s).1.map Entry.discord_user_id).Nodup) := by
  by_cases ha : (es.any fun e => e.uid == pyStrip s.text) = true
  · simp only [on_submit, ha, if_true]
    exact ⟨h1, h2⟩
  · by_cases hb : (es.any fun e => e.discord_user_id == s.user_id) = true
    · simp only [on_submit, ha, hb, if_false, if_true]
      exact ⟨h1, h2⟩
    · have ha' : pyStrip s.text ∉ es.map Entry.uid := by
        intro hm
        rcases List.mem_map.mp hm with ⟨e, he, hq⟩
        exact ha (List.any_eq_true.mpr ⟨e, he, beq_iff_eq.mpr hq⟩)
      have hb' : s.user_id ∉ es.map Entry.discord_user_id := by
        intro hm
        rcases List.mem_map.mp hm with ⟨e, he, hq⟩
        exact hb (List.any_eq_true.mpr ⟨e, he, beq_iff_eq.mpr hq⟩)
      have hacc := on_submit_accepts es s
        (fun e he hq => ha' (List.mem_map.mpr ⟨e, he, hq⟩))
        (fun e he hq => hb' (List.mem_map.mpr ⟨e, he, hq⟩))
      rw [hacc]
      constructor
      · rw [List.map_append]
        simp [List.nodup_append, h1, mkEntry, ha']
      · rw [List.map_append]
        simp [List.nodup_append, h2, mkEntry, hb']

theorem runRequests_nodup_aux (reqs : List Request) :
    ∀ es : List Entry,
      (es.map Entry.uid).Nodup → (es.map Entry.discord_user_id).Nodup →
      (((runRequests es reqs).map Entry.uid).Nodup ∧
        ((runRequests es reqs).map Entry.discord_user_id).Nodup) := by
  induction reqs with
  | nil => intro es h1 h2; exact ⟨h1, h2⟩
  | cons r rest ih =>
      intro es h1 h2
      cases r with
      | submit s =>
          have h := on_submit_preserves_nodup es s h1 h2
          exact ih (on_submit es s).1 h.1 h.2
      | exportCmd => exact ih es h1 h2

/-- C6: every store reachable from the empty store by sequentially handling
any sequence of inbound events satisfies both uniqueness invariants — no two
entries share a discord user id and no two entries share a uid. -/
theorem reachable_store_invariants (reqs : List Request) :
    (((runRequests [] reqs).map Entry.discord_user_id).Nodup) ∧
    (((runRequests [] reqs).map Entry.uid).Nodup) := by
  have h := runRequests_nodup_aux reqs [] (by simp) (by simp)
  exact ⟨h.2, h.1⟩

end GiveawayBot
